import Mathlib

/-!
Verification of the jeu-fa-api backend against its specification.

This file gives a shallow embedding, in Lean 4, of the parts of the
repository that the checked properties are about:

* `app/game_logic/strategy_logic.py` — payoff matrix (`calculate_gains`)
  and victory-condition evaluation (`check_victory_conditions`);
* `app/game_logic/fadu_data.py` and `app/game_logic/fadu_logic.py` —
  the weighted card tables and `FaduService.draw_card` /
  `perform_sacrifice`;
* `app/routers/game_actions.py` — the `decide_sacrifice` endpoint body;
* `app/websocket_manager.py` — the connection registry (`disconnect`);
* `app/routers/websocket.py` — the global matchmaking queue
  (`handle_matchmaking_message` join/leave handling,
  `try_match_players`, `remove_player_from_queue`).

Modelling conventions: Python `int` is `ℤ`; Python float arithmetic in
the payoff formulas is modelled exactly over `ℚ` (the coefficients are
small decimal literals and every value the program feeds through them
is an integer, so the rational model agrees with the float evaluation
on all the stated properties); `int(x)` is truncation toward zero;
Python dicts are association lists in insertion order; Python sets are
lists used up to membership; raising an exception is an explicit error
value; the runtime's random sample is an explicit parameter.
-/

/-- Truncation toward zero of a rational, the meaning of Python `int(x)`
applied to a numeric value. -/
def pyInt (q : ℚ) : ℤ := q.num.tdiv (q.den : ℤ)

/-- Python `max(x, y)` on integers, written as an explicit conditional
so that concrete instances reduce by kernel computation. -/
def pyMax (x y : ℤ) : ℤ := if x < y then y else x

/-- Association-list lookup (the meaning of `d.get(k)` / `k in d` on a
Python dict whose insertion order is the list order). -/
def lookupA {α β : Type} [DecidableEq α] (k : α) : List (α × β) → Option β
  | [] => none
  | p :: rest => if p.1 = k then some p.2 else lookupA k rest

/-- Association-list key removal, the meaning of `d.pop(k, None)`. -/
def eraseKey {α β : Type} [DecidableEq α] (k : α) (l : List (α × β)) : List (α × β) :=
  l.filter (fun p => p.1 ≠ k)

/-- Association-list insert-or-replace, the meaning of `d[k] = v`. -/
def setA {α β : Type} [DecidableEq α] (k : α) (v : β) : List (α × β) → List (α × β)
  | [] => [(k, v)]
  | p :: rest => if p.1 = k then (k, v) :: rest else p :: setA k v rest

/-- Insertion into a Python set modelled as a duplicate-free list
(`s.add(x)`). -/
def insertSet {α : Type} [DecidableEq α] (x : α) (s : List α) : List α :=
  if x ∈ s then s else x :: s

namespace StrategyLogic

/-- The three strategies of `strategy_logic.Strategy`
(`SUBMISSION = "V"`, `COOPERATION = "C"`, `WAR = "G"`). -/
inductive Strategy
  | submission
  | cooperation
  | war
deriving DecidableEq, Repr

/-- `strategy_logic.FaduType` (`STANDARD`, `SACRIFICE`). -/
inductive FaduType
  | standard
  | sacrifice
deriving DecidableEq, Repr

/-- A drawn fadu card as consumed by `calculate_gains`: every card dict
produced by the draw functions carries a `"type"` and an integer
`"pfh"` entry, which are the only keys `calculate_gains` reads. -/
structure Fadu where
  type : FaduType
  pfh : ℤ
deriving DecidableEq, Repr

/-- `strategy_logic.SACRIFICE_COST`. -/
def SACRIFICE_COST : ℤ := 14

/-- `strategy_logic.WINNING_PFH`. -/
def WINNING_PFH : ℤ := 280

/-- `strategy_logic.MAX_TURNS`. -/
def MAX_TURNS : ℤ := 20

/-- `strategy_logic.MAX_CONSECUTIVE_LOSSES`. -/
def MAX_CONSECUTIVE_LOSSES : ℤ := 3

/-- Strategic parameter `a = 0.0`. -/
def pa : ℚ := 0
/-- Strategic parameter `b = 0.0`. -/
def pb : ℚ := 0
/-- Strategic parameter `c = 0.2`. -/
def pc : ℚ := 1/5
/-- Strategic parameter `d = 0.2`. -/
def pd : ℚ := 1/5
/-- Strategic parameter `e = 0.3`. -/
def pe : ℚ := 3/10
/-- Strategic parameter `f = 0.8`. -/
def pf : ℚ := 4/5

/-- The `X`/`Y` selection at the top of `calculate_gains`: the sacrifice
branch and the plain-fadu branch both read the card's `"pfh"` entry
(every card dict carries one), and with no fadu the player's pfh is
used. -/
def effective_pfh (pfh : ℤ) (fadu : Option Fadu) (sacrifice : Bool) : ℤ :=
  match fadu with
  | some card =>
      if sacrifice = true ∧ card.type = FaduType.sacrifice then card.pfh else card.pfh
  | none => pfh

/-- The nine-case payoff matrix of `calculate_gains`, before the
sacrifice cost and the clamp to zero are applied. -/
def base_gains (strategy1 strategy2 : Strategy) (X Y : ℤ) : ℤ × ℤ :=
  match strategy1, strategy2 with
  | .submission, .submission =>
      (pyInt ((1 - pa) * (X : ℚ) + pb * (Y : ℚ)),
       pyInt (pa * (X : ℚ) + (1 - pb) * (Y : ℚ)))
  | .submission, .cooperation =>
      (pyInt ((X : ℚ) + (1 - pf) * pc * ((X : ℚ) + (Y : ℚ))),
       pyInt ((Y : ℚ) + pf * pc * ((X : ℚ) + (Y : ℚ))))
  | .submission, .war =>
      (pyInt ((1 - pe) * (X : ℚ)),
       pyInt ((Y : ℚ) + pe * (X : ℚ)))
  | .cooperation, .submission =>
      (pyInt ((X : ℚ) + pf * pc * ((X : ℚ) + (Y : ℚ))),
       pyInt ((Y : ℚ) + (1 - pf) * pc * ((X : ℚ) + (Y : ℚ))))
  | .cooperation, .cooperation =>
      (pyInt ((1 + pc) * (X : ℚ)),
       pyInt ((1 + pc) * (Y : ℚ)))
  | .cooperation, .war =>
      (pyInt ((1 - pe) * (1 + pc) * (X : ℚ)),
       pyInt ((1 + pc) * ((Y : ℚ) + pe * (X : ℚ))))
  | .war, .submission =>
      (pyInt ((X : ℚ) + pe * (Y : ℚ)),
       pyInt ((1 - pe) * (Y : ℚ)))
  | .war, .cooperation =>
      (pyInt ((1 + pc) * ((X : ℚ) + pe * (Y : ℚ))),
       pyInt ((1 - pe) * (1 + pc) * (Y : ℚ)))
  | .war, .war =>
      let iXY : ℚ := if X > Y then 1 else 0
      let iYX : ℚ := if Y > X then 1 else 0
      (pyInt ((1 - pd) * (X : ℚ) + pe * (Y : ℚ) * iXY - pe * (X : ℚ) * iYX),
       pyInt ((1 - pd) * (Y : ℚ) + pe * (X : ℚ) * iYX - pe * (Y : ℚ) * iXY))

/-- `strategy_logic.calculate_gains`: effective `X`/`Y` selection, the
payoff matrix, subtraction of the sacrifice cost for each player who
sacrificed, then the clamp of each component to a minimum of zero. -/
def calculate_gains (strategy1 strategy2 : Strategy) (pfh1 pfh2 : ℤ)
    (fadu1 fadu2 : Option Fadu) (sacrifice1 sacrifice2 : Bool) : ℤ × ℤ :=
  let X := effective_pfh pfh1 fadu1 sacrifice1
  let Y := effective_pfh pfh2 fadu2 sacrifice2
  let g := base_gains strategy1 strategy2 X Y
  let gains_p1 := if sacrifice1 = true then g.1 - SACRIFICE_COST else g.1
  let gains_p2 := if sacrifice2 = true then g.2 - SACRIFICE_COST else g.2
  (pyMax gains_p1 0, pyMax gains_p2 0)

/-- `strategy_logic.check_victory_conditions`: loss by consecutive-zero
streak, then win by pfh threshold, then max-turn resolution, else the
game continues. -/
def check_victory_conditions (player1_pfh player2_pfh player1_loss_streak
    player2_loss_streak current_turn : ℤ) : Bool × Option ℤ :=
  if player1_loss_streak ≥ MAX_CONSECUTIVE_LOSSES then (true, some 2)
  else if player2_loss_streak ≥ MAX_CONSECUTIVE_LOSSES then (true, some 1)
  else if player1_pfh ≥ WINNING_PFH then (true, some 1)
  else if player2_pfh ≥ WINNING_PFH then (true, some 2)
  else if current_turn ≥ MAX_TURNS then
    if player1_pfh > player2_pfh then (true, some 1)
    else if player2_pfh > player1_pfh then (true, some 2)
    else (true, none)
  else (false, none)

end StrategyLogic

namespace FaduLogic

/-- `fadu_data.FaduConfig.SACRIFICE_COST`. -/
def FaduConfig_SACRIFICE_COST : ℤ := 14

/-- One entry of the weighted card tables in `fadu_data.py`. -/
structure FaduEntry where
  id : String
  name : String
  pfh : ℤ
  image : String
  count : ℤ
deriving DecidableEq, Repr

/-- `fadu_data.STANDARD_FADUS`. -/
def STANDARD_FADUS : List FaduEntry :=
  [⟨"f1", "gbe_medji", 64, "gbe_medji.png", 1⟩,
   ⟨"f2", "yeku_medji", 60, "yeku_medji.png", 1⟩,
   ⟨"f3", "woli_medji", 56, "woli_medji.png", 1⟩]

/-- `fadu_data.SACRIFICE_FADUS`. -/
def SACRIFICE_FADUS : List FaduEntry :=
  [⟨"sf1", "gbe_medji", 64, "gbe_medji.png", 4⟩,
   ⟨"sf2", "yeku_medji", 60, "yeku_medji.png", 4⟩,
   ⟨"sf3", "woli_medji", 56, "woli_medji.png", 4⟩]

/-- A card entry extended with its computed `"probability"` key. -/
structure ProbEntry where
  id : String
  name : String
  pfh : ℤ
  image : String
  probability : ℚ
deriving DecidableEq, Repr

/-- The per-pool list comprehension inside `calculate_probabilities`:
each card gains `probability = count / total`. -/
def with_probability (l : List FaduEntry) : List ProbEntry :=
  let total : ℚ := (((l.map (fun en => en.count)).sum : ℤ) : ℚ)
  l.map (fun en => ⟨en.id, en.name, en.pfh, en.image, (en.count : ℚ) / total⟩)

/-- `fadu_data.calculate_probabilities`, restricted to its two card-pool
keys.  The returned dict's third key, `"config"`, holds scalar
configuration values rather than a card pool and is never read by
`draw_card`, so it does not appear in the pool map. -/
def calculate_probabilities : List (String × List ProbEntry) :=
  [("standard", with_probability STANDARD_FADUS),
   ("sacrifice", with_probability SACRIFICE_FADUS)]

/-- A drawn card as returned by `FaduService.draw_card`. -/
structure Card where
  id : String
  name : String
  pfh : ℤ
  image : String
  type : String
deriving DecidableEq, Repr

/-- The selection loop of `draw_card`: accumulate each card's
probability and return the first card whose cumulative weight strictly
exceeds the sample; fall off the end with no result otherwise. -/
def draw_from_pool (card_type : String) (rand : ℚ) :
    List ProbEntry → ℚ → Option Card
  | [], _ => none
  | card :: rest, cumulative =>
      let cumulative := cumulative + card.probability
      if rand < cumulative then
        some ⟨card.id, card.name, card.pfh, card.image, card_type⟩
      else draw_from_pool card_type rand rest cumulative

/-- `FaduService.draw_card`, with the service's probability map
(`self.probabilities`) and the uniform sample
`rand = random.uniform(0, total)` made explicit parameters. -/
def draw_card (probabilities : List (String × List ProbEntry))
    (card_type : String) (rand : ℚ) : Option Card :=
  if ¬ (card_type = "standard" ∨ card_type = "sacrifice") then none
  else
    let pool_key := if card_type = "standard" then "standard" else "sacrifice"
    match lookupA pool_key probabilities with
    | none => none
    | some pool =>
        if pool = [] then none
        else
          let total := (pool.map (fun card => card.probability)).sum
          if total ≤ 0 then none
          else draw_from_pool card_type rand pool 0

/-- Result dict of `perform_sacrifice`. -/
structure SacrificeOutcome where
  success : Bool
  new_pfh : ℤ
  card : Option Card
deriving DecidableEq, Repr

/-- `fadu_logic.perform_sacrifice` (the function body at the top of the
module): insufficient pfh is rejected with the pfh unchanged; a failed
sacrifice draw still pays the cost; a successful draw replaces the pfh
by the card's value.  The draw's outcome is an explicit parameter. -/
def perform_sacrifice (current_pfh : ℤ) (sacrifice_card : Option Card) :
    SacrificeOutcome :=
  if current_pfh < FaduConfig_SACRIFICE_COST then
    ⟨false, current_pfh, none⟩
  else
    match sacrifice_card with
    | none => ⟨false, current_pfh - FaduConfig_SACRIFICE_COST, none⟩
    | some card => ⟨true, card.pfh, some card⟩

end FaduLogic

namespace GameActions

/-- `settings.SACRIFICE_COST` (configuration default `14`), bound in
`game_actions.py` as `MIN_PFH_FOR_SACRIFICE`. -/
def MIN_PFH_FOR_SACRIFICE : ℤ := 14

/-- The fields of the game row that `decide_sacrifice` and its guard
helpers read or write. -/
structure Game where
  is_completed : Bool
  player1_id : ℤ
  player2_id : Option ℤ
  mode : String
  current_player : String
  current_phase : String
  player1_sacrifice : Option Bool
  player2_sacrifice : Option Bool
deriving DecidableEq, Repr

/-- The named rejections (`HTTPException`s) that the sacrifice endpoint
can raise. -/
inductive ApiError
  | notFound
  | gameCompleted
  | notParticipant
  | waitingForPlayer2
  | notYourTurn
  | wrongPhase
  | alreadyDecided
  | insufficientPfh
deriving DecidableEq, Repr

/-- `game_actions.get_player_type`. -/
def get_player_type (game : Game) (userId : ℤ) : Option String :=
  if game.player1_id = userId then some "player1"
  else if game.player2_id = some userId then some "player2"
  else none

/-- Python truthiness of the optional player2 id (`None` and `0` are
falsy). -/
def truthyId : Option ℤ → Bool
  | none => false
  | some n => decide (n ≠ 0)

/-- `game_actions.verify_game_status` applied to the row returned by the
game query (`none` models a missing row). -/
def verify_game_status (game : Option Game) (userId : ℤ) :
    Except ApiError (Game × String) :=
  match game with
  | none => Except.error ApiError.notFound
  | some g =>
      if g.is_completed = true then Except.error ApiError.gameCompleted
      else
        match get_player_type g userId with
        | none => Except.error ApiError.notParticipant
        | some player_type =>
            if truthyId g.player2_id = false ∧ g.mode ≠ "ai" then
              Except.error ApiError.waitingForPlayer2
            else Except.ok (g, player_type)

/-- The body of the `decide_sacrifice` endpoint.  A raised
`HTTPException` rolls the transaction back, so every rejection returns
the input state (game row and the player's pfh) unchanged together with
the named error; the accepted path records the decision without
touching the pfh. -/
def decide_sacrifice (game : Option Game) (userId : ℤ) (sacrifice : Bool)
    (player_pfh : ℤ) : (Option Game × ℤ) × Option ApiError :=
  match verify_game_status game userId with
  | Except.error err => ((game, player_pfh), some err)
  | Except.ok (g, player_type) =>
      if g.current_player ≠ player_type then
        ((game, player_pfh), some ApiError.notYourTurn)
      else if g.current_phase ≠ "sacrifice" then
        ((game, player_pfh), some ApiError.wrongPhase)
      else
        let current_decision :=
          if player_type = "player1" then g.player1_sacrifice else g.player2_sacrifice
        if current_decision ≠ none then
          ((game, player_pfh), some ApiError.alreadyDecided)
        else if sacrifice = true ∧ player_pfh < MIN_PFH_FOR_SACRIFICE then
          ((game, player_pfh), some ApiError.insufficientPfh)
        else
          let g1 :=
            if player_type = "player1" then { g with player1_sacrifice := some sacrifice }
            else { g with player2_sacrifice := some sacrifice }
          ((some g1, player_pfh), none)

end GameActions

namespace WSManager

/-- A live channel, identified opaquely. -/
abbrev WS := ℕ

/-- `websocket_manager.ConnectionType`. -/
inductive ConnectionType
  | player
  | game
  | matchmaking
deriving DecidableEq, Repr

/-- The entry `connect` stores in `connection_metadata` (its extra
display fields are irrelevant to `disconnect` and omitted). -/
structure ConnMeta where
  ctype : ConnectionType
  identifier : Option ℤ
deriving DecidableEq, Repr

/-- The mutable state of `WebSocketManager`: player map, game broadcast
groups, matchmaking set and the reverse metadata map. -/
structure Manager where
  player_connections : List (ℤ × WS)
  game_connections : List (ℤ × List WS)
  matchmaking_connections : List WS
  connection_metadata : List (WS × ConnMeta)
deriving DecidableEq, Repr

/-- Python truthiness of the optional identifier (`None` and `0` are
falsy). -/
def truthy : Option ℤ → Bool
  | none => false
  | some n => decide (n ≠ 0)

/-- The game-branch cleanup inside `disconnect`: discard the channel
from the game's broadcast set and delete the game key once the set is
empty. -/
def game_disconnect (m : Manager) (n : ℤ) (ws : WS) : Manager :=
  match lookupA n m.game_connections with
  | none => m
  | some s =>
      let s1 := s.filter (fun w => w ≠ ws)
      if s1 = [] then
        { m with game_connections := eraseKey n m.game_connections }
      else
        { m with game_connections :=
            m.game_connections.map (fun p => if p.1 = n then (n, s1) else p) }

/-- `WebSocketManager.disconnect`: look the channel up in the metadata
map, undo the registration recorded there, then drop the metadata
entry.  A channel with no metadata entry (never registered, or already
disconnected) matches no branch. -/
def disconnect (m : Manager) (ws : WS) : Manager :=
  let m1 :=
    match lookupA ws m.connection_metadata with
    | none => m
    | some meta =>
        match meta.ctype, meta.identifier with
        | ConnectionType.player, ident =>
            if truthy ident = true then
              match ident with
              | some n => { m with player_connections := eraseKey n m.player_connections }
              | none => m
            else m
        | ConnectionType.game, ident =>
            if truthy ident = true then
              match ident with
              | some n => game_disconnect m n ws
              | none => m
            else m
        | ConnectionType.matchmaking, _ =>
            { m with matchmaking_connections :=
                m.matchmaking_connections.filter (fun w => w ≠ ws) }
  { m1 with connection_metadata := eraseKey ws m1.connection_metadata }

end WSManager

namespace WSRouter

/-- A live channel, identified opaquely. -/
abbrev WS := ℕ

/-- One element of the global `matchmaking_queue` deque:
`(player_id, websocket, joined_at)`. -/
structure QueueEntry where
  pid : ℤ
  ws : WS
  joined_at : ℤ
deriving DecidableEq, Repr

/-- One value of the `queue_metadata` dict. -/
structure QMeta where
  ws : WS
  joined_at : ℤ
  player_name : String
deriving DecidableEq, Repr

/-- The global matchmaking state of `routers/websocket.py`:
`matchmaking_queue` (a deque, head = front), `players_in_queue` (a set)
and `queue_metadata` (a dict). -/
structure MMState where
  matchmaking_queue : List QueueEntry
  players_in_queue : List ℤ
  queue_metadata : List (ℤ × QMeta)
deriving DecidableEq, Repr

/-- The messages the matchmaking handlers send, reduced to the fields
the checked properties mention. -/
inductive MMMsg
  | matchmaking_status (dest : WS) (status : String) (pid : ℤ)
  | match_found (dest : WS) (pid opponent game_id : ℤ)
  | error_msg (dest : WS) (text : String)
deriving DecidableEq, Repr

/-- `try_match_players`.  `create_result` is the outcome of
`create_new_game` (`none` models the call raising).  The third output
component is `true` when the function itself terminates by an uncaught
exception: in the failure handler, the metadata restore references the
local `player1_name` / `player2_name`, which are only assigned *after*
the point where `create_new_game` raised, so reaching either restore
raises `NameError` before any error message is sent. -/
def try_match_players (create_result : Option ℤ) (st : MMState) :
    MMState × List MMMsg × Bool :=
  match st.matchmaking_queue with
  | e1 :: e2 :: rest =>
      let st1 : MMState :=
        { matchmaking_queue := rest
          players_in_queue :=
            (st.players_in_queue.filter (fun p => p ≠ e1.pid)).filter (fun p => p ≠ e2.pid)
          queue_metadata := eraseKey e2.pid (eraseKey e1.pid st.queue_metadata) }
      match create_result with
      | some game_id =>
          (st1,
           [MMMsg.match_found e1.ws e1.pid e2.pid game_id,
            MMMsg.match_found e2.ws e2.pid e1.pid game_id],
           false)
      | none =>
          let st2 : MMState :=
            { matchmaking_queue := e2 :: e1 :: rest
              players_in_queue :=
                insertSet e2.pid (insertSet e1.pid st1.players_in_queue)
              queue_metadata := st1.queue_metadata }
          if lookupA e1.pid st2.queue_metadata = none then
            (st2, [], true)
          else if lookupA e2.pid st2.queue_metadata = none then
            (st2, [], true)
          else
            (st2,
             [MMMsg.error_msg e1.ws "Failed to create match. You remain in queue.",
              MMMsg.error_msg e2.ws "Failed to create match. You remain in queue."],
             false)
  | _ => (st, [], false)

/-- The queue mutation performed by a successful `join_queue` request:
add to `players_in_queue`, append to the deque, record metadata. -/
def join_core (st : MMState) (pid : ℤ) (ws : WS) (joined_at : ℤ)
    (player_name : String) : MMState :=
  { matchmaking_queue := st.matchmaking_queue ++ [⟨pid, ws, joined_at⟩]
    players_in_queue := insertSet pid st.players_in_queue
    queue_metadata := setA pid ⟨ws, joined_at, player_name⟩ st.queue_metadata }

/-- The `join_queue` branch of `handle_matchmaking_message`:
already-queued requests are acknowledged without touching the queue; a
missing player row is an error without touching the queue; otherwise
the entry is appended and a pairing attempt runs immediately.
`player_found` is the outcome of the player lookup, `create_result`
that of `create_new_game` inside the pairing attempt. -/
def handle_join_queue (player_found : Bool) (create_result : Option ℤ)
    (st : MMState) (pid : ℤ) (ws : WS) (joined_at : ℤ) (player_name : String) :
    MMState × List MMMsg × Bool :=
  if pid ∈ st.players_in_queue then
    (st, [MMMsg.matchmaking_status ws "already_in_queue" pid], false)
  else if player_found = false then
    (st, [MMMsg.error_msg ws "Player not found in database"], false)
  else
    let st1 := join_core st pid ws joined_at player_name
    let res := try_match_players create_result st1
    (res.1, MMMsg.matchmaking_status ws "joined" pid :: res.2.1, res.2.2)

/-- `remove_player_from_queue`: drop the id from the set and the
metadata and rebuild the deque without that player's entries. -/
def remove_player_from_queue (st : MMState) (pid : ℤ) : MMState :=
  if pid ∈ st.players_in_queue then
    { matchmaking_queue := st.matchmaking_queue.filter (fun en => en.pid ≠ pid)
      players_in_queue := st.players_in_queue.filter (fun p => p ≠ pid)
      queue_metadata := eraseKey pid st.queue_metadata }
  else st

/-- The `leave_queue` branch of `handle_matchmaking_message` (also the
effect of the disconnect cleanup `cleanup_player_from_queue`). -/
def handle_leave_queue (st : MMState) (pid : ℤ) (ws : WS) :
    MMState × List MMMsg × Bool :=
  if pid ∈ st.players_in_queue then
    (remove_player_from_queue st pid,
     [MMMsg.matchmaking_status ws "left" pid], false)
  else (st, [], false)

/-- The queue states reachable from the empty initial state through the
matchmaking message handlers (join requests, leave requests and the
disconnect cleanup, which reuses the leave path). -/
inductive Reachable : MMState → Prop
  | init : Reachable ⟨[], [], []⟩
  | join (st : MMState) (player_found : Bool) (create_result : Option ℤ)
      (pid : ℤ) (ws : WS) (joined_at : ℤ) (player_name : String) :
      Reachable st →
      Reachable (handle_join_queue player_found create_result st pid ws joined_at player_name).1
  | leave (st : MMState) (pid : ℤ) (ws : WS) :
      Reachable st → Reachable (handle_leave_queue st pid ws).1

end WSRouter

/-! ## General lemmas about the modelling helpers -/

theorem le_pyMax_right (x y : ℤ) : y ≤ pyMax x y := by
  unfold pyMax; split <;> omega

theorem pyInt_intCast (n : ℤ) : pyInt ((n : ℤ) : ℚ) = n := by
  simp [pyInt, Rat.num_intCast, Rat.den_intCast]

theorem lookupA_none_forall {α β : Type} [DecidableEq α] (k : α) (l : List (α × β))
    (h : lookupA k l = none) : ∀ p ∈ l, p.1 ≠ k := by
  induction l with
  | nil => intro p hp; simp at hp
  | cons q rest ih =>
      by_cases hq : q.1 = k
      · simp [lookupA, hq] at h
      · intro p hp
        rcases List.mem_cons.mp hp with h1 | h2
        · rw [h1]; exact hq
        · exact ih (by simpa [lookupA, hq] using h) p h2

theorem eraseKey_of_lookupA_none {α β : Type} [DecidableEq α] (k : α) (l : List (α × β))
    (h : lookupA k l = none) : eraseKey k l = l := by
  have h2 := lookupA_none_forall k l h
  unfold eraseKey
  rw [List.filter_eq_self]
  intro p hp
  simpa using h2 p hp

theorem lookupA_eraseKey_self {α β : Type} [DecidableEq α] (k : α) (l : List (α × β)) :
    lookupA k (eraseKey k l) = none := by
  induction l with
  | nil => rfl
  | cons p rest ih =>
      by_cases h : p.1 = k
      · simpa [eraseKey, List.filter, h] using ih
      · simpa [eraseKey, List.filter, h, lookupA] using ih

/-! ## Claims about the outcome engine (`strategy_logic.py`) -/

/-- C1: for every pair of strategies, all non-negative effective inputs
`X` and `Y`, and all sacrifice flags, `calculate_gains` returns a pair
in which neither component is negative; when a player's sacrifice flag
is set, the fixed sacrifice cost of 14 is subtracted from that player's
computed gain before the clamp to zero is applied. -/
theorem calculate_gains_clamp_nonneg
    (strategy1 strategy2 : StrategyLogic.Strategy) (pfh1 pfh2 : ℤ)
    (fadu1 fadu2 : Option StrategyLogic.Fadu) (sacrifice1 sacrifice2 : Bool)
    (hX : 0 ≤ StrategyLogic.effective_pfh pfh1 fadu1 sacrifice1)
    (hY : 0 ≤ StrategyLogic.effective_pfh pfh2 fadu2 sacrifice2) :
    0 ≤ (StrategyLogic.calculate_gains strategy1 strategy2 pfh1 pfh2
          fadu1 fadu2 sacrifice1 sacrifice2).1 ∧
    0 ≤ (StrategyLogic.calculate_gains strategy1 strategy2 pfh1 pfh2
          fadu1 fadu2 sacrifice1 sacrifice2).2 ∧
    StrategyLogic.calculate_gains strategy1 strategy2 pfh1 pfh2
        fadu1 fadu2 sacrifice1 sacrifice2 =
      (pyMax ((StrategyLogic.base_gains strategy1 strategy2
            (StrategyLogic.effective_pfh pfh1 fadu1 sacrifice1)
            (StrategyLogic.effective_pfh pfh2 fadu2 sacrifice2)).1 -
          (if sacrifice1 = true then StrategyLogic.SACRIFICE_COST else 0)) 0,
       pyMax ((StrategyLogic.base_gains strategy1 strategy2
            (StrategyLogic.effective_pfh pfh1 fadu1 sacrifice1)
            (StrategyLogic.effective_pfh pfh2 fadu2 sacrifice2)).2 -
          (if sacrifice2 = true then StrategyLogic.SACRIFICE_COST else 0)) 0) := by
  refine ⟨le_pyMax_right _ 0, le_pyMax_right _ 0, ?_⟩
  cases sacrifice1 <;> cases sacrifice2 <;>
    simp [StrategyLogic.calculate_gains]

/-- Witness for C1 at a concrete input. -/
theorem calculate_gains_clamp_nonneg_witness :
    0 ≤ (StrategyLogic.calculate_gains .submission .submission 0 0
          none none false false).1 ∧
    0 ≤ (StrategyLogic.calculate_gains .submission .submission 0 0
          none none false false).2 ∧
    StrategyLogic.calculate_gains .submission .submission 0 0
        none none false false =
      (pyMax ((StrategyLogic.base_gains .submission .submission
            (StrategyLogic.effective_pfh 0 none false)
            (StrategyLogic.effective_pfh 0 none false)).1 -
          (if false = true then StrategyLogic.SACRIFICE_COST else 0)) 0,
       pyMax ((StrategyLogic.base_gains .submission .submission
            (StrategyLogic.effective_pfh 0 none false)
            (StrategyLogic.effective_pfh 0 none false)).2 -
          (if false = true then StrategyLogic.SACRIFICE_COST else 0)) 0) :=
  calculate_gains_clamp_nonneg .submission .submission 0 0 none none false false
    (by decide) (by decide)

/-- C2: `check_victory_conditions` applies exactly one condition, in
priority order: streak threshold first (opponent wins), then pfh
threshold (that player wins), then the max-turn tiebreak (higher pfh
wins, equality is a draw), else the game is not ended. -/
theorem check_victory_conditions_priority (p1 p2 s1 s2 t : ℤ) :
    ((StrategyLogic.MAX_CONSECUTIVE_LOSSES ≤ s1 ∨
      StrategyLogic.MAX_CONSECUTIVE_LOSSES ≤ s2) →
      (StrategyLogic.check_victory_conditions p1 p2 s1 s2 t).1 = true ∧
      ((StrategyLogic.MAX_CONSECUTIVE_LOSSES ≤ s1 ∧
        (StrategyLogic.check_victory_conditions p1 p2 s1 s2 t).2 = some 2) ∨
       (StrategyLogic.MAX_CONSECUTIVE_LOSSES ≤ s2 ∧
        (StrategyLogic.check_victory_conditions p1 p2 s1 s2 t).2 = some 1))) ∧
    (s1 < StrategyLogic.MAX_CONSECUTIVE_LOSSES →
     s2 < StrategyLogic.MAX_CONSECUTIVE_LOSSES →
      (StrategyLogic.WINNING_PFH ≤ p1 ∨ StrategyLogic.WINNING_PFH ≤ p2) →
      (StrategyLogic.check_victory_conditions p1 p2 s1 s2 t).1 = true ∧
      ((StrategyLogic.WINNING_PFH ≤ p1 ∧
        (StrategyLogic.check_victory_conditions p1 p2 s1 s2 t).2 = some 1) ∨
       (StrategyLogic.WINNING_PFH ≤ p2 ∧
        (StrategyLogic.check_victory_conditions p1 p2 s1 s2 t).2 = some 2))) ∧
    (s1 < StrategyLogic.MAX_CONSECUTIVE_LOSSES →
     s2 < StrategyLogic.MAX_CONSECUTIVE_LOSSES →
     p1 < StrategyLogic.WINNING_PFH → p2 < StrategyLogic.WINNING_PFH →
     StrategyLogic.MAX_TURNS ≤ t →
      (p2 < p1 → StrategyLogic.check_victory_conditions p1 p2 s1 s2 t = (true, some 1)) ∧
      (p1 < p2 → StrategyLogic.check_victory_conditions p1 p2 s1 s2 t = (true, some 2)) ∧
      (p1 = p2 → StrategyLogic.check_victory_conditions p1 p2 s1 s2 t = (true, none))) ∧
    (s1 < StrategyLogic.MAX_CONSECUTIVE_LOSSES →
     s2 < StrategyLogic.MAX_CONSECUTIVE_LOSSES →
     p1 < StrategyLogic.WINNING_PFH → p2 < StrategyLogic.WINNING_PFH →
     t < StrategyLogic.MAX_TURNS →
      StrategyLogic.check_victory_conditions p1 p2 s1 s2 t = (false, none)) := by
  refine ⟨?_, ?_, ?_, ?_⟩
  · intro h
    unfold StrategyLogic.check_victory_conditions
    split_ifs with h1 h2 <;>
      first
        | exact ⟨rfl, Or.inl ⟨h1, rfl⟩⟩
        | exact ⟨rfl, Or.inr ⟨h2, rfl⟩⟩
        | (rcases h with h | h <;> omega)
  · intro hs1 hs2 h
    unfold StrategyLogic.check_victory_conditions
    split_ifs with h1 h2 h3 h4 <;>
      first
        | exact ⟨rfl, Or.inl ⟨h3, rfl⟩⟩
        | exact ⟨rfl, Or.inr ⟨h4, rfl⟩⟩
        | omega
  · intro hs1 hs2 hp1 hp2 ht
    refine ⟨?_, ?_, ?_⟩ <;>
      (intro hcmp
       unfold StrategyLogic.check_victory_conditions
       split_ifs <;> first | rfl | omega)
  · intro hs1 hs2 hp1 hp2 ht
    unfold StrategyLogic.check_victory_conditions
    split_ifs <;> first | rfl | omega

/-- Witness for C2 at concrete inputs (a streak win and a non-ended
state). -/
theorem check_victory_conditions_priority_witness :
    ((StrategyLogic.check_victory_conditions 0 0 3 0 5).1 = true ∧
     ((StrategyLogic.MAX_CONSECUTIVE_LOSSES ≤ (3:ℤ) ∧
       (StrategyLogic.check_victory_conditions 0 0 3 0 5).2 = some 2) ∨
      (StrategyLogic.MAX_CONSECUTIVE_LOSSES ≤ (0:ℤ) ∧
       (StrategyLogic.check_victory_conditions 0 0 3 0 5).2 = some 1))) ∧
    StrategyLogic.check_victory_conditions 10 10 0 0 5 = (false, none) :=
  ⟨(check_victory_conditions_priority 0 0 3 0 5).1 (Or.inl (by decide)),
   (check_victory_conditions_priority 10 10 0 0 5).2.2.2
     (by decide) (by decide) (by decide) (by decide) (by decide)⟩

/-- C9: when both loss streaks reach the threshold together, player 2
is declared the winner (player 1's streak is tested first); when both
pfh values reach the win threshold and no streak fired, player 1 is
declared the winner. -/
theorem check_victory_conditions_simultaneous :
    (∀ p1 p2 s1 s2 t : ℤ,
      StrategyLogic.MAX_CONSECUTIVE_LOSSES ≤ s1 →
      StrategyLogic.MAX_CONSECUTIVE_LOSSES ≤ s2 →
      StrategyLogic.check_victory_conditions p1 p2 s1 s2 t = (true, some 2)) ∧
    (∀ p1 p2 s1 s2 t : ℤ,
      s1 < StrategyLogic.MAX_CONSECUTIVE_LOSSES →
      s2 < StrategyLogic.MAX_CONSECUTIVE_LOSSES →
      StrategyLogic.WINNING_PFH ≤ p1 → StrategyLogic.WINNING_PFH ≤ p2 →
      StrategyLogic.check_victory_conditions p1 p2 s1 s2 t = (true, some 1)) := by
  refine ⟨fun p1 p2 s1 s2 t h1 h2 => ?_, fun p1 p2 s1 s2 t h1 h2 h3 h4 => ?_⟩ <;>
    (unfold StrategyLogic.check_victory_conditions
     split_ifs <;> first | rfl | omega)

/-- Witness for C9 at concrete inputs. -/
theorem check_victory_conditions_simultaneous_witness :
    StrategyLogic.check_victory_conditions 0 0 3 3 1 = (true, some 2) ∧
    StrategyLogic.check_victory_conditions 280 280 0 0 1 = (true, some 1) :=
  ⟨check_victory_conditions_simultaneous.1 0 0 3 3 1 (by decide) (by decide),
   check_victory_conditions_simultaneous.2 280 280 0 0 1
     (by decide) (by decide) (by decide) (by decide)⟩

/-- C5: `(Cooperation, Cooperation)` with `X = Y = 100`, no fadu cards
and no sacrifices yields exactly `(120, 120)` via `int((1 + c) * X)`
with `c = 0.2`. -/
theorem calculate_gains_coop_coop_example :
    StrategyLogic.calculate_gains .cooperation .cooperation 100 100
      none none false false = (120, 120) := by
  have h : (1 + StrategyLogic.pc) * (((100:ℤ)) : ℚ) = (((120:ℤ)) : ℚ) := by
    unfold StrategyLogic.pc; push_cast; norm_num
  have hbase : StrategyLogic.base_gains .cooperation .cooperation 100 100 = (120, 120) := by
    show (pyInt ((1 + StrategyLogic.pc) * (((100:ℤ)) : ℚ)),
          pyInt ((1 + StrategyLogic.pc) * (((100:ℤ)) : ℚ))) = ((120:ℤ), (120:ℤ))
    rw [h, pyInt_intCast]
  have hcg : StrategyLogic.calculate_gains .cooperation .cooperation 100 100
      none none false false =
      (pyMax (StrategyLogic.base_gains .cooperation .cooperation 100 100).1 0,
       pyMax (StrategyLogic.base_gains .cooperation .cooperation 100 100).2 0) := rfl
  rw [hcg, hbase]
  decide

/-! ## Claims about the sacrifice endpoint and the card service -/

/-- C6: a sacrifice request by a player whose current pfh is below the
fixed cost of 14 is rejected with the insufficient-resource error and
leaves the game row and the player's pfh unchanged; the
`perform_sacrifice` guard rejects the same way with the pfh
unchanged. -/
theorem decide_sacrifice_insufficient
    (g : GameActions.Game) (userId player_pfh : ℤ) (player_type : String)
    (h1 : g.is_completed = false)
    (h2 : GameActions.get_player_type g userId = some player_type)
    (h3 : ¬ (GameActions.truthyId g.player2_id = false ∧ g.mode ≠ "ai"))
    (h4 : g.current_player = player_type)
    (h5 : g.current_phase = "sacrifice")
    (h6 : (if player_type = "player1" then g.player1_sacrifice
           else g.player2_sacrifice) = none)
    (h7 : player_pfh < GameActions.MIN_PFH_FOR_SACRIFICE) :
    GameActions.decide_sacrifice (some g) userId true player_pfh =
      ((some g, player_pfh), some GameActions.ApiError.insufficientPfh) ∧
    ∀ draw : Option FaduLogic.Card,
      (FaduLogic.perform_sacrifice player_pfh draw).success = false ∧
      (FaduLogic.perform_sacrifice player_pfh draw).new_pfh = player_pfh := by
  constructor
  · have hv : GameActions.verify_game_status (some g) userId =
        Except.ok (g, player_type) := by
      simp [GameActions.verify_game_status, h1, h2, h3]
    simp [GameActions.decide_sacrifice, hv, h4, h5, h6, h7]
  · intro draw
    have hlt : player_pfh < FaduLogic.FaduConfig_SACRIFICE_COST := by
      unfold FaduLogic.FaduConfig_SACRIFICE_COST
      unfold GameActions.MIN_PFH_FOR_SACRIFICE at h7
      omega
    unfold FaduLogic.perform_sacrifice
    rw [if_pos hlt]
    exact ⟨rfl, rfl⟩

/-- Witness for C6: pfh 10 against cost 14 in an otherwise valid
sacrifice-phase game. -/
theorem decide_sacrifice_insufficient_witness :
    GameActions.decide_sacrifice
        (some ⟨false, 1, some 2, "pvp", "player1", "sacrifice", none, none⟩)
        1 true 10 =
      ((some ⟨false, 1, some 2, "pvp", "player1", "sacrifice", none, none⟩, 10),
       some GameActions.ApiError.insufficientPfh) ∧
    (FaduLogic.perform_sacrifice 10 none).success = false ∧
    (FaduLogic.perform_sacrifice 10 none).new_pfh = 10 := by
  have h := decide_sacrifice_insufficient
    ⟨false, 1, some 2, "pvp", "player1", "sacrifice", none, none⟩
    1 10 "player1" rfl (by decide) (by decide) rfl rfl (by decide) (by decide)
  exact ⟨h.1, (h.2 none).1, (h.2 none).2⟩

/-- The selection loop returns nothing or a card built from a pool
member. -/
theorem draw_from_pool_mem_or_none (ct : String) (rand : ℚ) :
    ∀ (pool : List FaduLogic.ProbEntry) (cum : ℚ),
      FaduLogic.draw_from_pool ct rand pool cum = none ∨
      ∃ cd ∈ pool, FaduLogic.draw_from_pool ct rand pool cum =
        some ⟨cd.id, cd.name, cd.pfh, cd.image, ct⟩ := by
  intro pool
  induction pool with
  | nil => intro cum; exact Or.inl rfl
  | cons cd rest ih =>
      intro cum
      by_cases h : rand < cum + cd.probability
      · right
        refine ⟨cd, List.mem_cons_self cd rest, ?_⟩
        simp [FaduLogic.draw_from_pool, h]
      · rcases ih (cum + cd.probability) with h2 | ⟨cd2, hmem, h2⟩
        · left; simp [FaduLogic.draw_from_pool, h, h2]
        · right
          exact ⟨cd2, List.mem_cons_of_mem cd hmem,
                 by simp [FaduLogic.draw_from_pool, h, h2]⟩

/-- Once the sample reaches the remaining cumulative weight, the
selection loop falls off the end (given non-negative weights). -/
theorem draw_from_pool_ge_total_none (ct : String) :
    ∀ (pool : List FaduLogic.ProbEntry) (cum rand : ℚ),
      (∀ cd ∈ pool, 0 ≤ cd.probability) →
      cum + (pool.map (fun cd => cd.probability)).sum ≤ rand →
      FaduLogic.draw_from_pool ct rand pool cum = none := by
  intro pool
  induction pool with
  | nil => intro cum rand hnn hle; rfl
  | cons cd rest ih =>
      intro cum rand hnn hle
      simp only [List.map_cons, List.sum_cons] at hle
      have hnr : 0 ≤ (rest.map (fun cd => cd.probability)).sum := by
        apply List.sum_nonneg
        intro x hx
        rcases List.mem_map.mp hx with ⟨cd2, hcd2, hx2⟩
        rw [← hx2]
        exact hnn cd2 (List.mem_cons_of_mem cd hcd2)
      have hcond : ¬ rand < cum + cd.probability := by
        push_neg
        linarith
      simp only [FaduLogic.draw_from_pool]
      rw [if_neg hcond]
      exact ih (cum + cd.probability) rand
        (fun x hx => hnn x (List.mem_cons_of_mem cd hx)) (by linarith)

/-- Evaluation of `draw_card` past its card-type and pool-lookup
guards. -/
theorem draw_card_match (probs : List (String × List FaduLogic.ProbEntry))
    (ct : String) (rand : ℚ) (pool : List FaduLogic.ProbEntry)
    (hv : ct = "standard" ∨ ct = "sacrifice")
    (hlk : lookupA (if ct = "standard" then "standard" else "sacrifice") probs =
      some pool) :
    FaduLogic.draw_card probs ct rand =
      if pool = [] then none
      else if (pool.map (fun cd => cd.probability)).sum ≤ 0 then none
      else FaduLogic.draw_from_pool ct rand pool 0 := by
  simp only [FaduLogic.draw_card]
  rw [if_neg (not_not_intro hv), hlk]

/-- C10: `draw_card` is total over its explicit inputs and never
raises: an unknown card type, a missing pool, an empty pool or a
non-positive total weight each yield `none`; otherwise the result is
`none` or a card built from a member of the selected pool; and with the
service's own probability map a sample equal to the total cumulative
weight also yields `none`. -/
theorem draw_card_total :
    (∀ (probs : List (String × List FaduLogic.ProbEntry)) (ct : String) (rand : ℚ),
      ct ≠ "standard" → ct ≠ "sacrifice" →
      FaduLogic.draw_card probs ct rand = none) ∧
    (∀ (probs : List (String × List FaduLogic.ProbEntry)) (ct : String) (rand : ℚ),
      lookupA (if ct = "standard" then "standard" else "sacrifice") probs = none →
      FaduLogic.draw_card probs ct rand = none) ∧
    (∀ (probs : List (String × List FaduLogic.ProbEntry)) (ct : String) (rand : ℚ),
      lookupA (if ct = "standard" then "standard" else "sacrifice") probs = some [] →
      FaduLogic.draw_card probs ct rand = none) ∧
    (∀ (probs : List (String × List FaduLogic.ProbEntry)) (ct : String) (rand : ℚ)
       (pool : List FaduLogic.ProbEntry),
      lookupA (if ct = "standard" then "standard" else "sacrifice") probs = some pool →
      (pool.map (fun cd => cd.probability)).sum ≤ 0 →
      FaduLogic.draw_card probs ct rand = none) ∧
    (∀ (probs : List (String × List FaduLogic.ProbEntry)) (ct : String) (rand : ℚ),
      FaduLogic.draw_card probs ct rand = none ∨
      ∃ (pool : List FaduLogic.ProbEntry) (cd : FaduLogic.ProbEntry),
        lookupA (if ct = "standard" then "standard" else "sacrifice") probs = some pool ∧
        cd ∈ pool ∧
        FaduLogic.draw_card probs ct rand =
          some ⟨cd.id, cd.name, cd.pfh, cd.image, ct⟩) ∧
    (∀ ct : String, (ct = "standard" ∨ ct = "sacrifice") →
      ∀ pool : List FaduLogic.ProbEntry,
      lookupA ct FaduLogic.calculate_probabilities = some pool →
      FaduLogic.draw_card FaduLogic.calculate_probabilities ct
        ((pool.map (fun cd => cd.probability)).sum) = none) := by
  have invalid : ∀ (probs : List (String × List FaduLogic.ProbEntry))
      (ct : String) (rand : ℚ), ¬ (ct = "standard" ∨ ct = "sacrifice") →
      FaduLogic.draw_card probs ct rand = none := by
    intro probs ct rand hv
    simp only [FaduLogic.draw_card]
    rw [if_pos hv]
  have hkey : ∀ ct : String, ct = "standard" ∨ ct = "sacrifice" →
      (if ct = "standard" then "standard" else "sacrifice") = ct := by
    intro ct hct
    rcases hct with h | h <;> simp [h]
  have service_none : ∀ (ct : String) (hct : ct = "standard" ∨ ct = "sacrifice")
      (tbl : List FaduLogic.FaduEntry),
      lookupA ct FaduLogic.calculate_probabilities =
        some (FaduLogic.with_probability tbl) →
      (∀ cd ∈ FaduLogic.with_probability tbl, 0 ≤ cd.probability) →
      FaduLogic.with_probability tbl ≠ [] →
      ¬ ((FaduLogic.with_probability tbl).map (fun cd => cd.probability)).sum ≤ 0 →
      FaduLogic.draw_card FaduLogic.calculate_probabilities ct
        (((FaduLogic.with_probability tbl).map (fun cd => cd.probability)).sum) = none := by
    intro ct hct tbl hlk hnn hne htot
    rw [draw_card_match FaduLogic.calculate_probabilities ct _ _ hct
          (by rw [hkey ct hct]; exact hlk)]
    rw [if_neg hne, if_neg htot]
    exact draw_from_pool_ge_total_none ct _ 0 _ hnn (by rw [zero_add])
  refine ⟨?_, ?_, ?_, ?_, ?_, ?_⟩
  · intro probs ct rand h1 h2
    exact invalid probs ct rand (fun hor => hor.elim h1 h2)
  · intro probs ct rand hlk
    by_cases hv : ct = "standard" ∨ ct = "sacrifice"
    · simp only [FaduLogic.draw_card]
      rw [if_neg (not_not_intro hv), hlk]
    · exact invalid probs ct rand hv
  · intro probs ct rand hlk
    by_cases hv : ct = "standard" ∨ ct = "sacrifice"
    · rw [draw_card_match probs ct rand [] hv hlk]
      simp
    · exact invalid probs ct rand hv
  · intro probs ct rand pool hlk htot
    by_cases hv : ct = "standard" ∨ ct = "sacrifice"
    · rw [draw_card_match probs ct rand pool hv hlk]
      by_cases hp : pool = []
      · rw [if_pos hp]
      · rw [if_neg hp, if_pos htot]
    · exact invalid probs ct rand hv
  · intro probs ct rand
    by_cases hv : ct = "standard" ∨ ct = "sacrifice"
    · cases hlk : lookupA (if ct = "standard" then "standard" else "sacrifice") probs with
      | none =>
          left
          simp only [FaduLogic.draw_card]
          rw [if_neg (not_not_intro hv), hlk]
      | some pool =>
          by_cases hp : pool = []
          · left
            rw [draw_card_match probs ct rand pool hv hlk, if_pos hp]
          · by_cases htot : (pool.map (fun cd => cd.probability)).sum ≤ 0
            · left
              rw [draw_card_match probs ct rand pool hv hlk, if_neg hp, if_pos htot]
            · have heval : FaduLogic.draw_card probs ct rand =
                  FaduLogic.draw_from_pool ct rand pool 0 := by
                rw [draw_card_match probs ct rand pool hv hlk, if_neg hp, if_neg htot]
              rcases draw_from_pool_mem_or_none ct rand pool 0 with hn | ⟨cd, hmem, hsome⟩
              · left; rw [heval]; exact hn
              · right
                exact ⟨pool, cd, rfl, hmem, by rw [heval]; exact hsome⟩
    · left; exact invalid probs ct rand hv
  · intro ct hct pool hlk
    rcases hct with hct | hct
    · subst hct
      have hlk0 : lookupA "standard" FaduLogic.calculate_probabilities =
          some (FaduLogic.with_probability FaduLogic.STANDARD_FADUS) := by
        simp [lookupA, FaduLogic.calculate_probabilities]
      have hpool : pool = FaduLogic.with_probability FaduLogic.STANDARD_FADUS := by
        rw [hlk0] at hlk
        exact (Option.some.inj hlk).symm
      subst hpool
      refine service_none "standard" (Or.inl rfl) FaduLogic.STANDARD_FADUS hlk0 ?_ ?_ ?_
      · intro cd hcd
        simp [FaduLogic.with_probability, FaduLogic.STANDARD_FADUS] at hcd
        rcases hcd with h | h | h <;> subst h <;> norm_num
      · simp [FaduLogic.with_probability, FaduLogic.STANDARD_FADUS]
      · have hsum : ((FaduLogic.with_probability FaduLogic.STANDARD_FADUS).map
            (fun cd => cd.probability)).sum = 1 := by
          simp [FaduLogic.with_probability, FaduLogic.STANDARD_FADUS]
          norm_num
        rw [hsum]; norm_num
    · subst hct
      have hlk0 : lookupA "sacrifice" FaduLogic.calculate_probabilities =
          some (FaduLogic.with_probability FaduLogic.SACRIFICE_FADUS) := by
        simp [lookupA, FaduLogic.calculate_probabilities]
      have hpool : pool = FaduLogic.with_probability FaduLogic.SACRIFICE_FADUS := by
        rw [hlk0] at hlk
        exact (Option.some.inj hlk).symm
      subst hpool
      refine service_none "sacrifice" (Or.inr rfl) FaduLogic.SACRIFICE_FADUS hlk0 ?_ ?_ ?_
      · intro cd hcd
        simp [FaduLogic.with_probability, FaduLogic.SACRIFICE_FADUS] at hcd
        rcases hcd with h | h | h <;> subst h <;> norm_num
      · simp [FaduLogic.with_probability, FaduLogic.SACRIFICE_FADUS]
      · have hsum : ((FaduLogic.with_probability FaduLogic.SACRIFICE_FADUS).map
            (fun cd => cd.probability)).sum = 1 := by
          simp [FaduLogic.with_probability, FaduLogic.SACRIFICE_FADUS]
          norm_num
        rw [hsum]; norm_num

/-- Witness for C10 at concrete inputs (an unknown card type and a
missing pool). -/
theorem draw_card_total_witness :
    FaduLogic.draw_card FaduLogic.calculate_probabilities "bogus" 0 = none ∧
    FaduLogic.draw_card [] "standard" 0 = none :=
  ⟨draw_card_total.1 FaduLogic.calculate_probabilities "bogus" 0 (by decide) (by decide),
   draw_card_total.2.1 [] "standard" 0 rfl⟩

/-! ## Claims about the connection registry (`websocket_manager.py`) -/

/-- A channel with no metadata entry is untouched by `disconnect`. -/
theorem disconnect_absent (m : WSManager.Manager) (ws : WSManager.WS)
    (h : lookupA ws m.connection_metadata = none) :
    WSManager.disconnect m ws = m := by
  unfold WSManager.disconnect
  rw [h]
  show { m with connection_metadata := eraseKey ws m.connection_metadata } = m
  rw [eraseKey_of_lookupA_none ws m.connection_metadata h]

/-- After a `disconnect`, the channel has no metadata entry. -/
theorem disconnect_lookup_none (m : WSManager.Manager) (ws : WSManager.WS) :
    lookupA ws (WSManager.disconnect m ws).connection_metadata = none := by
  exact lookupA_eraseKey_self ws _

/-- C8: `disconnect` is idempotent — a second call on the same channel
leaves the registry exactly as the first call left it — and
disconnecting a channel that was never registered is a no-op. -/
theorem disconnect_idempotent :
    (∀ (m : WSManager.Manager) (ws : WSManager.WS),
      WSManager.disconnect (WSManager.disconnect m ws) ws =
        WSManager.disconnect m ws) ∧
    (∀ (m : WSManager.Manager) (ws : WSManager.WS),
      lookupA ws m.connection_metadata = none →
      WSManager.disconnect m ws = m) :=
  ⟨fun m ws => disconnect_absent (WSManager.disconnect m ws) ws
      (disconnect_lookup_none m ws),
   fun m ws h => disconnect_absent m ws h⟩

/-- Witness for C8 on a populated registry and an unregistered
channel. -/
theorem disconnect_idempotent_witness :
    WSManager.disconnect
        (WSManager.disconnect
          ⟨[(1, 10)], [(5, [10, 11])], [12],
           [(10, ⟨WSManager.ConnectionType.player, some 1⟩),
            (11, ⟨WSManager.ConnectionType.game, some 5⟩),
            (12, ⟨WSManager.ConnectionType.matchmaking, none⟩)]⟩ 10) 10 =
      WSManager.disconnect
        ⟨[(1, 10)], [(5, [10, 11])], [12],
         [(10, ⟨WSManager.ConnectionType.player, some 1⟩),
          (11, ⟨WSManager.ConnectionType.game, some 5⟩),
          (12, ⟨WSManager.ConnectionType.matchmaking, none⟩)]⟩ 10 ∧
    WSManager.disconnect
        ⟨[(1, 10)], [(5, [10, 11])], [12],
         [(10, ⟨WSManager.ConnectionType.player, some 1⟩),
          (11, ⟨WSManager.ConnectionType.game, some 5⟩),
          (12, ⟨WSManager.ConnectionType.matchmaking, none⟩)]⟩ 99 =
      ⟨[(1, 10)], [(5, [10, 11])], [12],
       [(10, ⟨WSManager.ConnectionType.player, some 1⟩),
        (11, ⟨WSManager.ConnectionType.game, some 5⟩),
        (12, ⟨WSManager.ConnectionType.matchmaking, none⟩)]⟩ :=
  ⟨disconnect_idempotent.1
     ⟨[(1, 10)], [(5, [10, 11])], [12],
      [(10, ⟨WSManager.ConnectionType.player, some 1⟩),
       (11, ⟨WSManager.ConnectionType.game, some 5⟩),
       (12, ⟨WSManager.ConnectionType.matchmaking, none⟩)]⟩ 10,
   disconnect_idempotent.2
     ⟨[(1, 10)], [(5, [10, 11])], [12],
      [(10, ⟨WSManager.ConnectionType.player, some 1⟩),
       (11, ⟨WSManager.ConnectionType.game, some 5⟩),
       (12, ⟨WSManager.ConnectionType.matchmaking, none⟩)]⟩ 99 (by decide)⟩

/-! ## Claims about the matchmaking queue (`routers/websocket.py`) -/

theorem mem_insertSet {α : Type} [DecidableEq α] (p x : α) (s : List α) :
    p ∈ insertSet x s ↔ p = x ∨ p ∈ s := by
  unfold insertSet
  split_ifs with h
  · constructor
    · exact Or.inr
    · rintro (rfl | hp)
      · exact h
      · exact hp
  · simp [List.mem_cons]

theorem mem_filter_ne {α : Type} [DecidableEq α] (p a : α) (s : List α) :
    p ∈ s.filter (fun q => q ≠ a) ↔ p ∈ s ∧ p ≠ a := by
  simp [List.mem_filter]

theorem mem_map_pid_filter (q : List WSRouter.QueueEntry) (pid p : ℤ) :
    p ∈ (q.filter (fun en => en.pid ≠ pid)).map WSRouter.QueueEntry.pid ↔
      p ∈ q.map WSRouter.QueueEntry.pid ∧ p ≠ pid := by
  simp only [List.mem_map, List.mem_filter, decide_eq_true_eq]
  constructor
  · rintro ⟨en, ⟨hen, hne⟩, rfl⟩
    exact ⟨⟨en, hen, rfl⟩, hne⟩
  · rintro ⟨⟨en, hen, rfl⟩, hne⟩
    exact ⟨en, ⟨hen, hne⟩, rfl⟩

/-- A pairing attempt preserves uniqueness of queued ids and the
correspondence between the deque and the tracking set. -/
theorem try_match_players_inv (st : WSRouter.MMState) (cr : Option ℤ)
    (hnd : (st.matchmaking_queue.map WSRouter.QueueEntry.pid).Nodup)
    (hiff : ∀ p, p ∈ st.matchmaking_queue.map WSRouter.QueueEntry.pid ↔
      p ∈ st.players_in_queue) :
    ((WSRouter.try_match_players cr st).1.matchmaking_queue.map
        WSRouter.QueueEntry.pid).Nodup ∧
    (∀ p, p ∈ (WSRouter.try_match_players cr st).1.matchmaking_queue.map
        WSRouter.QueueEntry.pid ↔
      p ∈ (WSRouter.try_match_players cr st).1.players_in_queue) := by
  obtain ⟨q, ss, md⟩ := st
  cases q with
  | nil => exact ⟨hnd, hiff⟩
  | cons e1 tl =>
      cases tl with
      | nil => exact ⟨hnd, hiff⟩
      | cons e2 rest =>
          simp only [List.map_cons, List.nodup_cons, List.mem_cons] at hnd
          cases cr with
          | some gid =>
              show (rest.map WSRouter.QueueEntry.pid).Nodup ∧
                ∀ p, p ∈ rest.map WSRouter.QueueEntry.pid ↔
                  p ∈ (ss.filter (fun p => p ≠ e1.pid)).filter (fun p => p ≠ e2.pid)
              refine ⟨hnd.2.2, ?_⟩
              intro p
              have h0 := hiff p
              simp only [List.map_cons, List.mem_cons] at h0
              rw [mem_filter_ne, mem_filter_ne]
              constructor
              · intro hp
                refine ⟨⟨h0.mp (Or.inr (Or.inr hp)), ?_⟩, ?_⟩
                · intro he; rw [he] at hp; exact hnd.1 (Or.inr hp)
                · intro he; rw [he] at hp; exact hnd.2.1 hp
              · rintro ⟨⟨hss, hne1⟩, hne2⟩
                rcases h0.mpr hss with h | h | h
                · exact absurd h hne1
                · exact absurd h hne2
                · exact h
          | none =>
              have hfst : (WSRouter.try_match_players none
                  ⟨e1 :: e2 :: rest, ss, md⟩).1 =
                  ⟨e2 :: e1 :: rest,
                   insertSet e2.pid (insertSet e1.pid
                     ((ss.filter (fun p => p ≠ e1.pid)).filter (fun p => p ≠ e2.pid))),
                   eraseKey e2.pid (eraseKey e1.pid md)⟩ := by
                simp only [WSRouter.try_match_players]
                split_ifs <;> rfl
              rw [hfst]
              constructor
              · simp only [List.map_cons, List.nodup_cons, List.mem_cons]
                refine ⟨?_, ?_, hnd.2.2⟩
                · rintro (h | h)
                  · exact hnd.1 (Or.inl h.symm)
                  · exact hnd.2.1 h
                · intro h
                  exact hnd.1 (Or.inr h)
              · intro p
                have h0 := hiff p
                simp only [List.map_cons, List.mem_cons] at h0 ⊢
                rw [mem_insertSet, mem_insertSet, mem_filter_ne, mem_filter_ne]
                constructor
                · rintro (h | h | h)
                  · exact Or.inl h
                  · exact Or.inr (Or.inl h)
                  · by_cases h2 : p = e2.pid
                    · exact Or.inl h2
                    · by_cases h1 : p = e1.pid
                      · exact Or.inr (Or.inl h1)
                      · exact Or.inr (Or.inr ⟨⟨h0.mp (Or.inr (Or.inr h)), h1⟩, h2⟩)
                · rintro (h | h | ⟨⟨hss, h1⟩, h2⟩)
                  · exact Or.inl h
                  · exact Or.inr (Or.inl h)
                  · rcases h0.mpr hss with h | h | h
                    · exact absurd h h1
                    · exact absurd h h2
                    · exact Or.inr (Or.inr h)

/-- `remove_player_from_queue` preserves uniqueness and the
deque/tracking-set correspondence. -/
theorem remove_player_from_queue_inv (st : WSRouter.MMState) (pid : ℤ)
    (hnd : (st.matchmaking_queue.map WSRouter.QueueEntry.pid).Nodup)
    (hiff : ∀ p, p ∈ st.matchmaking_queue.map WSRouter.QueueEntry.pid ↔
      p ∈ st.players_in_queue) :
    (((WSRouter.remove_player_from_queue st pid).matchmaking_queue).map
        WSRouter.QueueEntry.pid).Nodup ∧
    (∀ p, p ∈ ((WSRouter.remove_player_from_queue st pid).matchmaking_queue).map
        WSRouter.QueueEntry.pid ↔
      p ∈ (WSRouter.remove_player_from_queue st pid).players_in_queue) := by
  unfold WSRouter.remove_player_from_queue
  split_ifs with hmem
  · constructor
    · exact List.Nodup.sublist ((List.filter_sublist _).map _) hnd
    · intro p
      rw [mem_map_pid_filter, mem_filter_ne]
      exact and_congr_left (fun _ => hiff p)
  · exact ⟨hnd, hiff⟩

/-- Every reachable queue state has pairwise-distinct queued ids, and
its deque and tracking set list the same participants. -/
theorem reachable_inv (st : WSRouter.MMState) (h : WSRouter.Reachable st) :
    (st.matchmaking_queue.map WSRouter.QueueEntry.pid).Nodup ∧
    (∀ p, p ∈ st.matchmaking_queue.map WSRouter.QueueEntry.pid ↔
      p ∈ st.players_in_queue) := by
  induction h with
  | init =>
      refine ⟨List.nodup_nil, ?_⟩
      intro p
      simp
  | join st pf cr pid ws t nm hst ih =>
      by_cases hmem : pid ∈ st.players_in_queue
      · simpa [WSRouter.handle_join_queue, hmem] using ih
      · cases pf with
        | false => simpa [WSRouter.handle_join_queue, hmem] using ih
        | true =>
            have hq : ((WSRouter.join_core st pid ws t nm).matchmaking_queue.map
                WSRouter.QueueEntry.pid).Nodup := by
              show ((st.matchmaking_queue ++ [(⟨pid, ws, t⟩ : WSRouter.QueueEntry)]).map
                WSRouter.QueueEntry.pid).Nodup
              rw [List.map_append, List.nodup_append]
              refine ⟨ih.1, by simp, ?_⟩
              intro a ha hb
              simp at hb
              rw [hb] at ha
              exact hmem ((ih.2 pid).mp ha)
            have hiff2 : ∀ p, p ∈ (WSRouter.join_core st pid ws t nm).matchmaking_queue.map
                WSRouter.QueueEntry.pid ↔
                p ∈ (WSRouter.join_core st pid ws t nm).players_in_queue := by
              intro p
              show p ∈ (st.matchmaking_queue ++ [(⟨pid, ws, t⟩ : WSRouter.QueueEntry)]).map
                  WSRouter.QueueEntry.pid ↔ p ∈ insertSet pid st.players_in_queue
              rw [List.map_append, List.mem_append, mem_insertSet]
              have h0 := ih.2 p
              simp only [List.map_cons, List.map_nil, List.mem_singleton]
              constructor
              · rintro (h | h)
                · exact Or.inr (h0.mp h)
                · exact Or.inl h
              · rintro (h | h)
                · exact Or.inr h
                · exact Or.inl (h0.mpr h)
            have hres := try_match_players_inv (WSRouter.join_core st pid ws t nm) cr hq hiff2
            simpa [WSRouter.handle_join_queue, hmem] using hres
  | leave st pid ws hst ih =>
      by_cases hmem : pid ∈ st.players_in_queue
      · have hres := remove_player_from_queue_inv st pid ih.1 ih.2
        simpa [WSRouter.handle_leave_queue, hmem] using hres
      · simpa [WSRouter.handle_leave_queue, hmem] using ih

/-- C7: at every reachable queue state each participant id occurs in at
most one queue entry; a join for a participant already in the queue is
acknowledged as already queued and leaves the state unchanged; a
successful join appends exactly one entry for that participant. -/
theorem queue_uniqueness :
    (∀ st : WSRouter.MMState, WSRouter.Reachable st →
      (st.matchmaking_queue.map WSRouter.QueueEntry.pid).Nodup) ∧
    (∀ (st : WSRouter.MMState) (pf : Bool) (cr : Option ℤ) (pid : ℤ)
       (ws : WSRouter.WS) (t : ℤ) (nm : String),
      pid ∈ st.players_in_queue →
      WSRouter.handle_join_queue pf cr st pid ws t nm =
        (st, [WSRouter.MMMsg.matchmaking_status ws "already_in_queue" pid], false)) ∧
    (∀ (st : WSRouter.MMState) (pid : ℤ) (ws : WSRouter.WS) (t : ℤ) (nm : String),
      pid ∉ st.players_in_queue →
      (WSRouter.join_core st pid ws t nm).matchmaking_queue =
        st.matchmaking_queue ++ [⟨pid, ws, t⟩]) := by
  refine ⟨fun st h => (reachable_inv st h).1, ?_, ?_⟩
  · intro st pf cr pid ws t nm hmem
    simp [WSRouter.handle_join_queue, hmem]
  · intro st pid ws t nm hmem
    rfl

/-- Witness for C7: the empty state is reachable with distinct ids, a
duplicate join is rejected unchanged, and a fresh join appends one
entry. -/
theorem queue_uniqueness_witness :
    (((⟨[], [], []⟩ : WSRouter.MMState).matchmaking_queue.map
        WSRouter.QueueEntry.pid).Nodup) ∧
    WSRouter.handle_join_queue true (some 5)
        ⟨[⟨1, 10, 100⟩], [1], [(1, ⟨10, 100, "A"⟩)]⟩ 1 10 100 "A" =
      (⟨[⟨1, 10, 100⟩], [1], [(1, ⟨10, 100, "A"⟩)]⟩,
       [WSRouter.MMMsg.matchmaking_status 10 "already_in_queue" 1], false) ∧
    (WSRouter.join_core ⟨[⟨1, 10, 100⟩], [1], [(1, ⟨10, 100, "A"⟩)]⟩
        2 20 101 "B").matchmaking_queue =
      [⟨1, 10, 100⟩] ++ [⟨2, 20, 101⟩] :=
  ⟨queue_uniqueness.1 ⟨[], [], []⟩ WSRouter.Reachable.init,
   queue_uniqueness.2.1 ⟨[⟨1, 10, 100⟩], [1], [(1, ⟨10, 100, "A"⟩)]⟩
     true (some 5) 1 10 100 "A" (by decide),
   queue_uniqueness.2.2 ⟨[⟨1, 10, 100⟩], [1], [(1, ⟨10, 100, "A"⟩)]⟩
     2 20 101 "B" (by decide)⟩

/-- C4: a pairing attempt with fewer than two queued entries does
nothing; with at least two entries it removes exactly the two entries
at the front of the deque (the earliest joined) and matches them with
each other; in the scenario where participants 1, 2, 3 join in that
order with no leaves, the first pairing is exactly (1, 2). -/
theorem try_match_fifo :
    (∀ (st : WSRouter.MMState) (cr : Option ℤ),
      st.matchmaking_queue.length < 2 →
      WSRouter.try_match_players cr st = (st, [], false)) ∧
    (∀ (st : WSRouter.MMState) (e1 e2 : WSRouter.QueueEntry)
       (rest : List WSRouter.QueueEntry) (gid : ℤ),
      st.matchmaking_queue = e1 :: e2 :: rest →
      (WSRouter.try_match_players (some gid) st).1.matchmaking_queue = rest ∧
      (WSRouter.try_match_players (some gid) st).2.1 =
        [WSRouter.MMMsg.match_found e1.ws e1.pid e2.pid gid,
         WSRouter.MMMsg.match_found e2.ws e2.pid e1.pid gid]) ∧
    ((WSRouter.handle_join_queue true (some 50)
        ((WSRouter.handle_join_queue true (some 50) ⟨[], [], []⟩ 1 10 100 "A").1)
        2 20 101 "B").2.1 =
      [WSRouter.MMMsg.matchmaking_status 20 "joined" 2,
       WSRouter.MMMsg.match_found 10 1 2 50,
       WSRouter.MMMsg.match_found 20 2 1 50] ∧
     (WSRouter.handle_join_queue true (some 50)
        ((WSRouter.handle_join_queue true (some 50)
          ((WSRouter.handle_join_queue true (some 50) ⟨[], [], []⟩ 1 10 100 "A").1)
          2 20 101 "B").1)
        3 30 102 "C").1.matchmaking_queue = [⟨3, 30, 102⟩]) := by
  refine ⟨?_, ?_, by decide, by decide⟩
  · intro st cr h
    obtain ⟨q, ss, md⟩ := st
    cases q with
    | nil => rfl
    | cons e1 tl =>
        cases tl with
        | nil => rfl
        | cons e2 rest =>
            simp at h
            omega
  · intro st e1 e2 rest gid hq
    obtain ⟨q, ss, md⟩ := st
    change q = e1 :: e2 :: rest at hq
    subst hq
    exact ⟨rfl, rfl⟩

/-- Witness for C4: a single-entry queue is left untouched, and a
two-entry queue pairs its front entries. -/
theorem try_match_fifo_witness :
    WSRouter.try_match_players (some 7)
        ⟨[⟨1, 10, 100⟩], [1], [(1, ⟨10, 100, "A"⟩)]⟩ =
      (⟨[⟨1, 10, 100⟩], [1], [(1, ⟨10, 100, "A"⟩)]⟩, [], false) ∧
    (WSRouter.try_match_players (some 7)
        ⟨[⟨1, 10, 100⟩, ⟨2, 20, 101⟩], [1, 2], []⟩).1.matchmaking_queue = [] ∧
    (WSRouter.try_match_players (some 7)
        ⟨[⟨1, 10, 100⟩, ⟨2, 20, 101⟩], [1, 2], []⟩).2.1 =
      [WSRouter.MMMsg.match_found 10 1 2 7,
       WSRouter.MMMsg.match_found 20 2 1 7] :=
  ⟨try_match_fifo.1 ⟨[⟨1, 10, 100⟩], [1], [(1, ⟨10, 100, "A"⟩)]⟩ (some 7) (by decide),
   (try_match_fifo.2.1 ⟨[⟨1, 10, 100⟩, ⟨2, 20, 101⟩], [1, 2], []⟩
      ⟨1, 10, 100⟩ ⟨2, 20, 101⟩ [] 7 rfl).1,
   (try_match_fifo.2.1 ⟨[⟨1, 10, 100⟩, ⟨2, 20, 101⟩], [1, 2], []⟩
      ⟨1, 10, 100⟩ ⟨2, 20, 101⟩ [] 7 rfl).2⟩

/-- C3 (code divergence): with two queued participants and a failing
session creation, the error handler reinserts the pair in *reversed*
order (the later-joined participant ends up at the front), restores the
tracking set, and then raises `NameError` on the unassigned local
`player1_name` — so the metadata is not restored and no error message
is sent to either participant. -/
theorem try_match_failure_divergence :
    WSRouter.try_match_players none
        ⟨[⟨1, 10, 100⟩, ⟨2, 20, 101⟩], [1, 2],
         [(1, ⟨10, 100, "alice"⟩), (2, ⟨20, 101, "bob"⟩)]⟩ =
      (⟨[⟨2, 20, 101⟩, ⟨1, 10, 100⟩], [2, 1], []⟩, [], true) := by
  decide
